import Mathlib

/-!
# Verification of the `nero-cli` installer/updater

A shallow embedding of `src/nero_cli/cli.py`. The persisted configuration
file holds a JSON object; we model JSON values with the inductive `Json`,
the config file's content as `Option Json` (`none` = file absent), and the
installation record as the structure `Config`. Interactive input is a
finite list of stdin lines; reading past its end models `EOFError`.
External effects (network fetches, subprocess runs, file deletions) are
driven by oracle fields of a `World` structure and recorded in traces.
-/

namespace Nero

/-- JSON values as written/read by `json.dump` / `json.load`
(only the fragment the program uses: objects, strings and null). -/
inductive Json where
  | null : Json
  | str (s : String) : Json
  | obj (fields : List (String × Json)) : Json
deriving Repr

/-- The installation record persisted by the program:
`current_version`, `previous_version`, `last_update`, each nullable. -/
structure Config where
  current_version : Option String
  previous_version : Option String
  last_update : Option String
deriving Repr, DecidableEq

/-- Python truthiness of an optional string (`if x:`):
false exactly for `None` and the empty string. -/
def truthy : Option String → Bool
  | none => false
  | some s => s ≠ ""

/-- `Option String` encoded as a Json field value. -/
def optStr : Option String → Json
  | none => Json.null
  | some s => Json.str s

/-- Serialize a `Config` the way `json.dump(config, ...)` writes it. -/
def configToJson (c : Config) : Json :=
  Json.obj
    [ ("current_version", optStr c.current_version)
    , ("previous_version", optStr c.previous_version)
    , ("last_update", optStr c.last_update) ]

/-- First binding of a key in a JSON object (Python dict lookup). -/
def lookupField : List (String × Json) → String → Option Json
  | [], _ => none
  | (k, v) :: rest, key => if k = key then some v else lookupField rest key

/-- Read a nullable-string field the way the program consumes it
(`config.get(key)`): a string stays a string, anything else is `None`. -/
def asOptString : Option Json → Option String
  | some (Json.str s) => some s
  | _ => none

/-- View a loaded JSON document as an installation record, mirroring how
the program accesses the loaded dict field by field. -/
def jsonToConfig : Json → Config
  | Json.obj fs =>
    { current_version := asOptString (lookupField fs "current_version")
      previous_version := asOptString (lookupField fs "previous_version")
      last_update := asOptString (lookupField fs "last_update") }
  | _ => { current_version := none, previous_version := none, last_update := none }

/-- `load_config`: if the config file exists, parse it; otherwise return
the default record with all three fields `None` (cli.py lines 213-221). -/
def load_config (file : Option Json) : Config :=
  match file with
  | some j => jsonToConfig j
  | none => { current_version := none, previous_version := none, last_update := none }

/-- `save_config`: on a dry run only print; otherwise write the record as
JSON, creating the file if absent (cli.py lines 224-231). Returns the
printed lines and the new file content. -/
def save_config (config : Config) (dry_run : Bool) (file : Option Json) :
    List String × Option Json :=
  if dry_run then
    (["[DRY RUN] Would save config"], file)
  else
    (["Saving configuration"], some (configToJson config))

/-- `update_config`: load the record, shift `current_version` into
`previous_version`, set `current_version` to the new version and
`last_update` to the current time, then save (cli.py lines 234-243).
Returns the printed lines, the new file content, and the record that was
passed to `save_config`. -/
def update_config (version : String) (dry_run : Bool) (now : String)
    (file : Option Json) : List String × Option Json × Config :=
  let config := load_config file
  let newRecord : Config :=
    { current_version := some version
      previous_version := config.current_version
      last_update := some now }
  let (msgs, file') := save_config newRecord dry_run file
  (msgs, file', newRecord)

/-! ## Interactive input -/

/-- The distinct interactive prompts the program can show. -/
inductive Prompt where
  | installLatest : Prompt
  | upgradeDowngradeCancel : Prompt
  | downgradeVersion : Prompt
  | rollbackVersion : Prompt
deriving Repr, DecidableEq

/-- Interactive session state: the remaining stdin lines and the prompts
shown so far, in order. -/
structure IOState where
  inputs : List String
  shown : List Prompt
deriving Repr, DecidableEq

/-- One `input(...)` call: show the prompt and read a line; with stdin
exhausted Python raises `EOFError`. -/
def readLine (p : Prompt) (st : IOState) : Except String (String × IOState) :=
  match st.inputs with
  | [] => Except.error "EOFError"
  | i :: rest => Except.ok (i, ⟨rest, st.shown ++ [p]⟩)

/-- ASCII lowercasing of one character (Python `str.lower` on the
alphabet this program compares against). -/
def lowerChar (c : Char) : Char :=
  if c.toNat ≥ 65 ∧ c.toNat ≤ 90 then Char.ofNat (c.toNat + 32) else c

/-- Python `str.lower()`. -/
def lower (s : String) : String :=
  ⟨s.data.map lowerChar⟩

/-- Python `str.strip()`: drop leading and trailing whitespace. -/
def strip (s : String) : String :=
  ⟨((s.data.dropWhile Char.isWhitespace).reverse.dropWhile
      Char.isWhitespace).reverse⟩

/-- `prompt_user`: a y/n answer counts as yes exactly when
`answer.lower().strip() == "y"` (cli.py lines 246-247). -/
def prompt_user (answer : String) : Bool :=
  strip (lower answer) == "y"

/-- `check_for_updates` (cli.py lines 356-387), after the latest version
has been fetched. With a current version that differs from the latest it
asks upgrade/downgrade/cancel: `u` resolves to the latest, `d` asks for a
version and resolves to it (blank cancels), anything else cancels; equal
versions resolve to `None` with no prompt; with no current version it
asks whether to install the latest. -/
def check_for_updates (current_version : Option String) (latest_version : String)
    (st : IOState) : Except String (Option String × IOState) :=
  if truthy current_version then
    if current_version.getD "" ≠ latest_version then
      match readLine Prompt.upgradeDowngradeCancel st with
      | Except.error e => Except.error e
      | Except.ok (raw, st1) =>
        let choice := lower (strip raw)
        if choice = "u" then Except.ok (some latest_version, st1)
        else if choice = "d" then
          match readLine Prompt.downgradeVersion st1 with
          | Except.error e => Except.error e
          | Except.ok (raw2, st2) =>
            let downgrade_version := strip raw2
            Except.ok
              (if downgrade_version ≠ "" then some downgrade_version else none, st2)
        else Except.ok (none, st1)
    else Except.ok (none, st)
  else
    match readLine Prompt.installLatest st with
    | Except.error e => Except.error e
    | Except.ok (ans, st1) =>
      Except.ok (if prompt_user ans then some latest_version else none, st1)

/-- `check_and_display_config` (cli.py lines 311-353), after the latest
version has been fetched: prints the record, then runs the same
resolution dialogue as `check_for_updates` on the record's
`current_version`. -/
def check_and_display_config (config : Config) (latest_version : String)
    (st : IOState) : Except String (Option String × IOState) :=
  let current_version := config.current_version
  if truthy current_version then
    if current_version.getD "" ≠ latest_version then
      match readLine Prompt.upgradeDowngradeCancel st with
      | Except.error e => Except.error e
      | Except.ok (raw, st1) =>
        let choice := lower (strip raw)
        if choice = "u" then Except.ok (some latest_version, st1)
        else if choice = "d" then
          match readLine Prompt.downgradeVersion st1 with
          | Except.error e => Except.error e
          | Except.ok (raw2, st2) =>
            let downgrade_version := strip raw2
            Except.ok
              (if downgrade_version ≠ "" then some downgrade_version else none, st2)
        else Except.ok (none, st1)
    else Except.ok (none, st)
  else
    match readLine Prompt.installLatest st with
    | Except.error e => Except.error e
    | Except.ok (ans, st1) =>
      Except.ok (if prompt_user ans then some latest_version else none, st1)

/-- The `while True` prompt loop of `get_rollback_version`, structured
over the remaining stdin lines: keep asking for a version until a
non-blank line is entered, returning it stripped. -/
def rollback_loop_aux : List String → List Prompt → Except String (String × IOState)
  | [], _ => Except.error "EOFError"
  | i :: rest, shown =>
    let entered_version := strip i
    if entered_version ≠ "" then
      Except.ok (entered_version, ⟨rest, shown ++ [Prompt.rollbackVersion]⟩)
    else
      rollback_loop_aux rest (shown ++ [Prompt.rollbackVersion])

/-- The `while True` prompt loop of `get_rollback_version` on an
interactive session state. -/
def rollback_loop (st : IOState) : Except String (String × IOState) :=
  rollback_loop_aux st.inputs st.shown

/-- `get_rollback_version` (cli.py lines 296-308): a truthy stored
`previous_version` is returned as-is with no prompt; otherwise prompt
until a non-blank version is typed. -/
def get_rollback_version (config : Config) (st : IOState) :
    Except String (String × IOState) :=
  match config.previous_version with
  | some p => if p ≠ "" then Except.ok (p, st) else rollback_loop st
  | none => rollback_loop st

/-! ## Effectful helpers -/

/-- `run_command` (cli.py lines 115-131): on a dry run only print what
would run; otherwise print, run the command in a shell (outcome supplied
by the oracle `result`) and raise on a non-zero exit. Returns the printed
lines, the commands actually executed, and the control-flow outcome. -/
def run_command (command : String) (dry_run : Bool) (wait : Bool)
    (result : Except String Unit) :
    List String × List String × Except String Unit :=
  if dry_run then
    ([(if wait then "[DRY RUN] Would run and wait:" else "[DRY RUN] Would run:")
        ++ command], [], Except.ok ())
  else
    ([(if wait then "Executing and waiting:" else "Executing:") ++ command],
      [command], result)

/-- `download_file` (cli.py lines 201-209): on a dry run only print what
would be downloaded; otherwise print and retrieve the URL (outcome
supplied by the oracle `result`). Returns the printed lines, the
retrievals actually attempted, and the control-flow outcome. -/
def download_file (url : String) (filename : String) (dry_run : Bool)
    (result : Except String Unit) :
    List String × List (String × String) × Except String Unit :=
  if dry_run then
    (["[DRY RUN] Would download: " ++ url ++ " to " ++ filename], [],
      Except.ok ())
  else
    match result with
    | Except.ok () =>
      (["Downloading: " ++ url ++ " to " ++ filename, "Download completed"],
        [(url, filename)], Except.ok ())
    | Except.error e =>
      (["Downloading: " ++ url ++ " to " ++ filename], [(url, filename)],
        Except.error e)

/-! ## Cleanup -/

/-- Deletion oracles and filesystem facts seen by `cleanup`: whether the
archive and the temp extraction directory exist, and for each, whether
the i-th deletion attempt succeeds (`false` = `PermissionError`). -/
structure CleanupWorld where
  zipExists : Bool
  removeOutcome : Nat → Bool
  tempDirExists : Bool
  rmtreeOutcome : Nat → Bool

/-- The bounded retry loop around a deletion (`for attempt in range(5)`
with a sleep on `PermissionError` and an `else:` give-up message):
given the per-attempt outcomes from index `i` and the remaining fuel,
returns whether the deletion succeeded and how many attempts were made. -/
def retry_delete (outcome : Nat → Bool) : Nat → Nat → Bool × Nat
  | 0, _ => (false, 0)
  | fuel + 1, i =>
    if outcome i then (true, 1)
    else
      let r := retry_delete outcome fuel (i + 1)
      (r.1, r.2 + 1)

/-- Observable outcome of `cleanup`: per target, how many deletion
attempts ran, whether it was removed, and whether the loop exhausted its
5 attempts and printed the give-up message. -/
structure CleanupResult where
  zipAttempts : Nat
  zipRemoved : Bool
  zipGaveUp : Bool
  tempAttempts : Nat
  tempRemoved : Bool
  tempGaveUp : Bool
deriving Repr, DecidableEq

/-- `cleanup` (cli.py lines 258-293): delete the downloaded archive
unless `keep` is set (and it exists), then delete the temp extraction
directory if it exists; each deletion retries up to 5 times on
`PermissionError`, sleeping 1 second after each failed attempt, and
prints a failure message when all 5 attempts fail. -/
def cleanup (zip_path : Option String) (keep : Bool) (w : CleanupWorld) :
    CleanupResult :=
  let zipTried := zip_path.isSome && !keep && w.zipExists
  let rz := if zipTried then retry_delete w.removeOutcome 5 0 else (false, 0)
  let rt :=
    if w.tempDirExists then retry_delete w.rmtreeOutcome 5 0 else (false, 0)
  { zipAttempts := rz.2, zipRemoved := rz.1, zipGaveUp := zipTried && !rz.1
    tempAttempts := rt.2, tempRemoved := rt.1
    tempGaveUp := w.tempDirExists && !rt.1 }

/-! ## The main flow `nero` -/

/-- The CLI flags `nero` reads (argparse namespace). -/
structure Args where
  dry_run : Bool := false
  download_only : Bool := false
  latest : Bool := false
  version : Option String := none
  rollback : Bool := false
  keep : Bool := false
  download_dir : Option String := none
  check : Bool := false
  list_versions : Bool := false
  update_config : Bool := false
  use_pyenv : Bool := false
deriving Repr

/-- Oracles for the external collaborators of the main flow, on a POSIX
platform: Python-version suitability, the outcome of the two release
fetches, the clock, the temp directories, download-dir writability, and
the outcomes of the download, extraction and install steps. -/
structure World where
  pythonOk : Bool
  latest : Except String String
  releases : Except String Unit
  now : String
  tempDir : String
  extractDir : String
  dirWritable : Bool
  download : Except String Unit
  extract : Except String Unit
  install : Except String Unit

/-- Mutable state threaded through a run of `nero`: the config file, the
interactive session, and traces of the external effects performed. -/
structure St where
  file : Option Json
  io : IOState
  fetched : Nat
  releasesFetched : Nat
  retrievals : List (String × String)
  executed : List String
  writes : List Config
  zipPath : Option String

/-- Control flow inside the `try` block: an early `return`, or fall
through to the next statement with the current value of the mutable
`args.version`. -/
inductive Flow where
  | ret : Flow
  | cont (version : Option String) : Flow

/-- Sequencing of the statements of `nero`'s `try` block: propagate
exceptions and early returns, otherwise continue. -/
def andThen (r : Except String Flow × St)
    (k : Option String → St → Except String Flow × St) :
    Except String Flow × St :=
  match r with
  | (Except.error e, s) => (Except.error e, s)
  | (Except.ok Flow.ret, s) => (Except.ok Flow.ret, s)
  | (Except.ok (Flow.cont v), s) => k v s

/-- The `if args.check:` statement (cli.py lines 474-479): run
`check_and_display_config` (which fetches the latest version and may
prompt); on `None` print and return, else assign the result to
`args.version`. -/
def stepCheck (args : Args) (w : World) (config : Config) (s : St) :
    Except String Flow × St :=
  if args.check then
    let s := { s with fetched := s.fetched + 1 }
    match w.latest with
    | Except.error e => (Except.error e, s)
    | Except.ok latest =>
      match check_and_display_config config latest s.io with
      | Except.error e => (Except.error e, s)
      | Except.ok (action_result, io') =>
        match action_result with
        | none => (Except.ok Flow.ret, { s with io := io' })
        | some v => (Except.ok (Flow.cont (some v)), { s with io := io' })
  else (Except.ok (Flow.cont args.version), s)

/-- The `if args.rollback:` statement (cli.py lines 481-482): assign
`get_rollback_version(config)` to `args.version`. -/
def stepRollback (args : Args) (config : Config) (version : Option String)
    (s : St) : Except String Flow × St :=
  if args.rollback then
    match get_rollback_version config s.io with
    | Except.error e => (Except.error e, s)
    | Except.ok (v, io') => (Except.ok (Flow.cont (some v)), { s with io := io' })
  else (Except.ok (Flow.cont version), s)

/-- The `if args.list_versions:` statement (cli.py lines 484-486):
`display_versions()` fetches the release list and the function returns. -/
def stepList (args : Args) (w : World) (version : Option String) (s : St) :
    Except String Flow × St :=
  if args.list_versions then
    let s := { s with releasesFetched := s.releasesFetched + 1 }
    match w.releases with
    | Except.error e => (Except.error e, s)
    | Except.ok () => (Except.ok Flow.ret, s)
  else (Except.ok (Flow.cont version), s)

/-- The `if not args.version:` statement (cli.py lines 488-492): run the
resolver `check_for_updates` (which fetches the latest version); return
when it yields `None` or `""`, else assign the result to `args.version`. -/
def stepResolve (_args : Args) (w : World) (config : Config)
    (version : Option String) (s : St) : Except String Flow × St :=
  if truthy version then (Except.ok (Flow.cont version), s)
  else
    let s := { s with fetched := s.fetched + 1 }
    match w.latest with
    | Except.error e => (Except.error e, s)
    | Except.ok latest =>
      match check_for_updates config.current_version latest s.io with
      | Except.error e => (Except.error e, s)
      | Except.ok (action_result, io') =>
        match action_result with
        | none => (Except.ok Flow.ret, { s with io := io' })
        | some v =>
          if v = "" then (Except.ok Flow.ret, { s with io := io' })
          else (Except.ok (Flow.cont (some v)), { s with io := io' })

/-- The `if args.update_config:` statement (cli.py lines 494-498): write
the config for `args.version or get_latest_version()` and return. -/
def stepUpdateOnly (args : Args) (w : World) (version : Option String)
    (s : St) : Except String Flow × St :=
  if args.update_config then
    if truthy version then
      let (_msgs, file', rec) :=
        update_config (version.getD "") args.dry_run w.now s.file
      (Except.ok Flow.ret,
        { s with file := file'
                 writes := if args.dry_run then s.writes else s.writes ++ [rec] })
    else
      let s := { s with fetched := s.fetched + 1 }
      match w.latest with
      | Except.error e => (Except.error e, s)
      | Except.ok latest =>
        let (_msgs, file', rec) := update_config latest args.dry_run w.now s.file
        (Except.ok Flow.ret,
          { s with file := file'
                   writes := if args.dry_run then s.writes else s.writes ++ [rec] })
  else (Except.ok (Flow.cont version), s)

/-- The download URL for a version (cli.py lines 500-501). -/
def downloadUrl (v : String) : String :=
  "https://github.com/invoke-ai/InvokeAI/releases/download/v" ++ v
    ++ "/InvokeAI-installer-v" ++ v ++ ".zip"

/-- The tail of `nero`'s `try` block after version resolution (cli.py
lines 500-541): build the download URL, pick the download directory,
check writability, download, and unless `--download-only` extract the
archive, run the installer and persist the new record. -/
def neroInstall (args : Args) (w : World) (version : Option String) (s : St) :
    Except String Unit × St :=
  let v := version.getD ""
  let zip_filename := "InvokeAI-installer-v" ++ v ++ ".zip"
  let download_url := downloadUrl v
  let download_dir :=
    if truthy args.download_dir then args.download_dir.getD "" else w.tempDir
  if !w.dirWritable then (Except.ok (), s)
  else
    let zip_path := download_dir ++ "/" ++ zip_filename
    let s := { s with zipPath := some zip_path }
    let (_m1, retrs, dlResult) :=
      download_file download_url zip_path args.dry_run w.download
    let s := { s with retrievals := s.retrievals ++ retrs }
    match dlResult with
    | Except.error e => (Except.error e, s)
    | Except.ok () =>
      if args.download_only then (Except.ok (), s)
      else
        let temp_dir_path := w.extractDir
        let (_m2, ex2, exResult) :=
          run_command ("unzip -o " ++ zip_path ++ " -d " ++ temp_dir_path)
            args.dry_run false w.extract
        let s := { s with executed := s.executed ++ ex2 }
        match exResult with
        | Except.error e => (Except.error e, s)
        | Except.ok () =>
          let (_m3, ex3, instResult) :=
            run_command "./install.sh" args.dry_run false w.install
          let s := { s with executed := s.executed ++ ex3 }
          match instResult with
          | Except.error e => (Except.error e, s)
          | Except.ok () =>
            let (_m4, file', rec) := update_config v args.dry_run w.now s.file
            (Except.ok (),
              { s with file := file'
                       writes :=
                         if args.dry_run then s.writes else s.writes ++ [rec] })

/-- Finish the `try` block: an early `return` completes normally, an
exception propagates, and falling through runs the download/install tail
on the resolved version. -/
def finish (r : Except String Flow × St)
    (k : Option String → St → Except String Unit × St) :
    Except String Unit × St :=
  match r with
  | (Except.error e, s) => (Except.error e, s)
  | (Except.ok Flow.ret, s) => (Except.ok (), s)
  | (Except.ok (Flow.cont version), s) => k version s

/-- The whole `try` block of `nero` (cli.py lines 432-541): the Python
version gate, loading the config, then the statement chain. -/
def neroBody (args : Args) (w : World) (s : St) : Except String Unit × St :=
  if !w.pythonOk then (Except.ok (), s)
  else
    let config := load_config s.file
    finish
      (andThen (stepCheck args w config s) fun v s =>
       andThen (stepRollback args config v s) fun v s =>
       andThen (stepList args w v s) fun v s =>
       andThen (stepResolve args w config v s) fun v s =>
       stepUpdateOnly args w v s)
      (neroInstall args w)

/-- Observable outcome of a run of `nero`: final state, the exception
message caught by the top-level handler (if any), the error lines it
printed, and the `cleanup` calls made by the `finally` clause. -/
structure NeroOut where
  st : St
  raised : Option String
  errorPrints : List String
  cleanups : List (String × Bool)

/-- `nero` (cli.py lines 428-547): run the `try` block; the `except`
clause prints any exception; the `finally` clause runs `cleanup` exactly
when `zip_path` was assigned. -/
def nero (args : Args) (w : World) (file : Option Json)
    (inputs : List String) : NeroOut :=
  let s0 : St :=
    { file := file, io := ⟨inputs, []⟩, fetched := 0, releasesFetched := 0
      retrievals := [], executed := [], writes := [], zipPath := none }
  let (res, s1) := neroBody args w s0
  let (raised, errorPrints) :=
    match res with
    | Except.ok () => (none, ([] : List String))
    | Except.error e => (some e, ["An error occurred: " ++ e])
  let cleanups :=
    match s1.zipPath with
    | none => ([] : List (String × Bool))
    | some zp => [(zp, args.keep)]
  ⟨s1, raised, errorPrints, cleanups⟩

/-! ## Example inputs for witnesses -/

/-- A world in which every external step succeeds. -/
def wOk : World :=
  { pythonOk := true, latest := Except.ok "0.2", releases := Except.ok ()
    now := "2024-01-01T00:00:00", tempDir := "/tmp", extractDir := "/tmp/x"
    dirWritable := true, download := Except.ok (), extract := Except.ok ()
    install := Except.ok () }

end Nero

namespace Nero

/-! ## Basic lemmas -/

lemma asOptString_optStr (x : Option String) :
    asOptString (some (optStr x)) = x := by
  cases x <;> rfl

/-- A serialized record parses back to itself. -/
lemma jsonToConfig_configToJson (c : Config) :
    jsonToConfig (configToJson c) = c := by
  obtain ⟨a, b, d⟩ := c
  simp only [configToJson, jsonToConfig, lookupField, Config.mk.injEq]
  refine ⟨?_, ?_, ?_⟩ <;> simp [asOptString_optStr]

/-! ## Frame lemmas for the statements of `nero` -/

/-- `--check` touches only the fetch count and the interactive session. -/
lemma stepCheck_frame (args : Args) (w : World) (config : Config) (s : St) :
    (stepCheck args w config s).2.file = s.file ∧
    (stepCheck args w config s).2.writes = s.writes ∧
    (stepCheck args w config s).2.zipPath = s.zipPath ∧
    (stepCheck args w config s).2.retrievals = s.retrievals ∧
    (stepCheck args w config s).2.executed = s.executed ∧
    (stepCheck args w config s).2.releasesFetched = s.releasesFetched := by
  by_cases hc : args.check
  · simp only [stepCheck, hc, if_true]
    cases w.latest with
    | error e => simp
    | ok latest =>
      cases h : check_and_display_config config latest s.io with
      | error e => simp [h]
      | ok pr =>
        obtain ⟨res, io'⟩ := pr
        cases res <;> simp [h]
  · simp [stepCheck, hc]

/-- `--rollback` touches only the interactive session. -/
lemma stepRollback_frame (args : Args) (config : Config)
    (version : Option String) (s : St) :
    (stepRollback args config version s).2.file = s.file ∧
    (stepRollback args config version s).2.writes = s.writes ∧
    (stepRollback args config version s).2.zipPath = s.zipPath ∧
    (stepRollback args config version s).2.retrievals = s.retrievals ∧
    (stepRollback args config version s).2.executed = s.executed ∧
    (stepRollback args config version s).2.fetched = s.fetched ∧
    (stepRollback args config version s).2.releasesFetched = s.releasesFetched := by
  unfold stepRollback
  repeat' split
  all_goals simp_all

/-- `--list-versions` touches only the release-fetch count. -/
lemma stepList_frame (args : Args) (w : World) (version : Option String)
    (s : St) :
    (stepList args w version s).2.file = s.file ∧
    (stepList args w version s).2.writes = s.writes ∧
    (stepList args w version s).2.zipPath = s.zipPath ∧
    (stepList args w version s).2.retrievals = s.retrievals ∧
    (stepList args w version s).2.executed = s.executed ∧
    (stepList args w version s).2.fetched = s.fetched ∧
    (stepList args w version s).2.io = s.io := by
  unfold stepList
  repeat' split
  all_goals simp_all

/-- The `check_for_updates` statement touches only the fetch count and
the interactive session. -/
lemma stepResolve_frame (args : Args) (w : World) (config : Config)
    (version : Option String) (s : St) :
    (stepResolve args w config version s).2.file = s.file ∧
    (stepResolve args w config version s).2.writes = s.writes ∧
    (stepResolve args w config version s).2.zipPath = s.zipPath ∧
    (stepResolve args w config version s).2.retrievals = s.retrievals ∧
    (stepResolve args w config version s).2.executed = s.executed ∧
    (stepResolve args w config version s).2.releasesFetched = s.releasesFetched := by
  by_cases ht : truthy version
  · simp [stepResolve, ht]
  · simp only [stepResolve, ht, Bool.false_eq_true, if_false]
    cases w.latest with
    | error e => simp
    | ok latest =>
      cases h : check_for_updates config.current_version latest s.io with
      | error e => simp [h]
      | ok pr =>
        obtain ⟨res, io'⟩ := pr
        cases res with
        | none => simp [h]
        | some v => by_cases hv : v = "" <;> simp [h, hv]

/-- What `--update-config` can do to the config file and write trace:
either nothing, or one write whose record shifts the loaded
`current_version` into `previous_version`; and it never changes the
file on an exception or a dry run. -/
lemma stepUpdateOnly_spec (args : Args) (w : World) (version : Option String)
    (s : St) :
    (stepUpdateOnly args w version s).2.zipPath = s.zipPath ∧
    (stepUpdateOnly args w version s).2.retrievals = s.retrievals ∧
    (stepUpdateOnly args w version s).2.executed = s.executed ∧
    (stepUpdateOnly args w version s).2.io = s.io ∧
    ((stepUpdateOnly args w version s).2.file = s.file ∧
       (stepUpdateOnly args w version s).2.writes = s.writes ∨
     ∃ rec : Config,
       rec.previous_version = (load_config s.file).current_version ∧
       rec.last_update = some w.now ∧
       (stepUpdateOnly args w version s).2.file = some (configToJson rec) ∧
       (stepUpdateOnly args w version s).2.writes = s.writes ++ [rec]) ∧
    (∀ e, (stepUpdateOnly args w version s).1 = Except.error e →
       (stepUpdateOnly args w version s).2.file = s.file ∧
       (stepUpdateOnly args w version s).2.writes = s.writes) ∧
    (∀ v, (stepUpdateOnly args w version s).1 = Except.ok (Flow.cont v) →
       (stepUpdateOnly args w version s).2 = s) := by
  by_cases hu : args.update_config
  · by_cases ht : truthy version
    · by_cases hd : args.dry_run
      · simp [stepUpdateOnly, update_config, save_config, hu, ht, hd]
      · simp only [stepUpdateOnly, update_config, save_config, hu, ht, hd,
          if_true, if_false, Bool.false_eq_true]
        refine ⟨?_, ?_, ?_, ?_, Or.inr
          ⟨{ current_version := some (version.getD "")
             previous_version := (load_config s.file).current_version
             last_update := some w.now }, rfl, rfl, ?_, ?_⟩, ?_, ?_⟩ <;>
          first
          | trivial
          | (intro e h; simp at h)
    · cases hl : w.latest with
      | error e => simp [stepUpdateOnly, hu, ht, hl]
      | ok latest =>
        by_cases hd : args.dry_run
        · simp [stepUpdateOnly, update_config, save_config, hu, ht, hl, hd]
        · simp only [stepUpdateOnly, update_config, save_config, hu, ht, hl,
            hd, if_true, if_false, Bool.false_eq_true]
          refine ⟨?_, ?_, ?_, ?_, Or.inr
            ⟨{ current_version := some latest
               previous_version := (load_config s.file).current_version
               last_update := some w.now }, rfl, rfl, ?_, ?_⟩, ?_, ?_⟩ <;>
            first
            | trivial
            | (intro e h; simp at h)
  · simp [stepUpdateOnly, hu]

/-- What the download/extract/install tail can do: it never fetches or
prompts; every retrieval it attempts targets the download URL of the
resolved version; the config file is unchanged except for a single final
write of the new record; and on an exception the file is unchanged. -/
lemma neroInstall_spec (args : Args) (w : World) (version : Option String)
    (s : St) :
    (neroInstall args w version s).2.fetched = s.fetched ∧
    (neroInstall args w version s).2.releasesFetched = s.releasesFetched ∧
    (neroInstall args w version s).2.io = s.io ∧
    (∀ r ∈ (neroInstall args w version s).2.retrievals,
       r ∈ s.retrievals ∨ r.1 = downloadUrl (version.getD "")) ∧
    ((neroInstall args w version s).2.file = s.file ∧
       (neroInstall args w version s).2.writes = s.writes ∨
     (neroInstall args w version s).2.file =
         some (configToJson
           { current_version := some (version.getD "")
             previous_version := (load_config s.file).current_version
             last_update := some w.now }) ∧
       (neroInstall args w version s).2.writes = s.writes ++
         [{ current_version := some (version.getD "")
            previous_version := (load_config s.file).current_version
            last_update := some w.now }]) ∧
    (∀ e, (neroInstall args w version s).1 = Except.error e →
       (neroInstall args w version s).2.file = s.file ∧
       (neroInstall args w version s).2.writes = s.writes) := by
  by_cases hw : w.dirWritable
  case neg =>
    simp only [neroInstall, hw]
    and_intros <;> first
      | tauto
      | (intro e h; simp at h)
  case pos =>
    by_cases hd : args.dry_run
    · by_cases ho : args.download_only <;>
        · simp [neroInstall, download_file, run_command, update_config,
            save_config, hw, hd, ho]
          and_intros <;> first
            | tauto
            | (intro e h; simp at h)
    · cases hdl : w.download with
      | error e =>
        simp [neroInstall, download_file, hw, hd, hdl]
        and_intros <;> first
          | tauto
          | (intro e h; exact ⟨rfl, rfl⟩)
      | ok u =>
        by_cases ho : args.download_only
        · simp [neroInstall, download_file, hw, hd, ho, hdl]
          and_intros <;> first
            | tauto
            | (intro e h; simp at h)
        · cases hex : w.extract with
          | error e =>
            simp [neroInstall, download_file, run_command, hw, hd, ho, hdl,
              hex]
            and_intros <;> first
              | tauto
              | (intro e h; exact ⟨rfl, rfl⟩)
          | ok u2 =>
            cases hin : w.install with
            | error e =>
              simp [neroInstall, download_file, run_command, hw, hd, ho,
                hdl, hex, hin]
              and_intros <;> first
                | tauto
                | (intro e h; exact ⟨rfl, rfl⟩)
            | ok u3 =>
              simp [neroInstall, download_file, run_command, update_config,
                save_config, hw, hd, ho, hdl, hex, hin]
              and_intros <;> first
                | tauto
                | (right; exact ⟨rfl, rfl⟩)
                | (intro e h; simp at h)

/-- Composite invariant of the whole `try` block: every record written
during a run shifts the initially loaded `current_version` into
`previous_version` and stamps the run's clock; the config file is either
untouched or holds exactly the one record written; and when the block
raises, the config file is untouched. -/
lemma neroBody_spec (args : Args) (w : World) (s0 : St)
    (h0 : s0.writes = []) :
    (∀ rec ∈ (neroBody args w s0).2.writes,
       rec.previous_version = (load_config s0.file).current_version ∧
       rec.last_update = some w.now) ∧
    ((neroBody args w s0).2.file = s0.file ∨
     ∃ rec : Config,
       rec.previous_version = (load_config s0.file).current_version ∧
       (neroBody args w s0).2.file = some (configToJson rec) ∧
       (neroBody args w s0).2.writes = [rec]) ∧
    (∀ e, (neroBody args w s0).1 = Except.error e →
       (neroBody args w s0).2.file = s0.file) := by
  by_cases hp : w.pythonOk
  case neg => simp [neroBody, hp, h0]
  case pos =>
    simp only [neroBody, hp, Bool.not_true, Bool.false_eq_true, if_false]
    rcases h1 : stepCheck args w (load_config s0.file) s0 with ⟨r1, s1⟩
    have f1 := stepCheck_frame args w (load_config s0.file) s0
    rw [h1] at f1
    dsimp only at f1
    obtain ⟨f1file, f1writes, -, -, -, -⟩ := f1
    cases r1 with
    | error e => simp [finish, andThen, f1file, f1writes, h0]
    | ok fl =>
      cases fl with
      | ret => simp [finish, andThen, f1file, f1writes, h0]
      | cont v1 =>
        simp only [andThen]
        rcases h2 : stepRollback args (load_config s0.file) v1 s1 with ⟨r2, s2⟩
        have f2 := stepRollback_frame args (load_config s0.file) v1 s1
        rw [h2] at f2
        dsimp only at f2
        obtain ⟨f2file, f2writes, -, -, -, -, -⟩ := f2
        have g2file : s2.file = s0.file := by rw [f2file, f1file]
        have g2writes : s2.writes = [] := by rw [f2writes, f1writes, h0]
        cases r2 with
        | error e => simp [finish, andThen, g2file, g2writes]
        | ok fl2 =>
          cases fl2 with
          | ret => simp [finish, andThen, g2file, g2writes]
          | cont v2 =>
            simp only [andThen]
            rcases h3 : stepList args w v2 s2 with ⟨r3, s3⟩
            have f3 := stepList_frame args w v2 s2
            rw [h3] at f3
            dsimp only at f3
            obtain ⟨f3file, f3writes, -, -, -, -, -⟩ := f3
            have g3file : s3.file = s0.file := by rw [f3file, g2file]
            have g3writes : s3.writes = [] := by rw [f3writes, g2writes]
            cases r3 with
            | error e => simp [finish, andThen, g3file, g3writes]
            | ok fl3 =>
              cases fl3 with
              | ret => simp [finish, andThen, g3file, g3writes]
              | cont v3 =>
                simp only [andThen]
                rcases h4 : stepResolve args w (load_config s0.file) v3 s3
                  with ⟨r4, s4⟩
                have f4 := stepResolve_frame args w (load_config s0.file) v3 s3
                rw [h4] at f4
                dsimp only at f4
                obtain ⟨f4file, f4writes, -, -, -, -⟩ := f4
                have g4file : s4.file = s0.file := by rw [f4file, g3file]
                have g4writes : s4.writes = [] := by rw [f4writes, g3writes]
                cases r4 with
                | error e => simp [finish, andThen, g4file, g4writes]
                | ok fl4 =>
                  cases fl4 with
                  | ret => simp [finish, andThen, g4file, g4writes]
                  | cont v4 =>
                    simp only [andThen]
                    have u := stepUpdateOnly_spec args w v4 s4
                    rcases h5 : stepUpdateOnly args w v4 s4 with ⟨r5, s5⟩
                    rw [h5] at u
                    dsimp only at u
                    obtain ⟨-, -, -, -, udisj, uerr, ucont⟩ := u
                    cases r5 with
                    | error e =>
                      obtain ⟨hfe, hwe⟩ := uerr e rfl
                      simp [finish, hfe, hwe, g4file, g4writes]
                    | ok fl5 =>
                      cases fl5 with
                      | ret =>
                        rcases udisj with ⟨hfe, hwe⟩ |
                          ⟨rec, hprev, hlast, hfe, hwe⟩
                        · simp [finish, hfe, hwe, g4file, g4writes]
                        · rw [g4file] at hprev
                          rw [g4writes, List.nil_append] at hwe
                          simp only [finish, hfe, hwe]
                          refine ⟨?_, Or.inr ⟨rec, hprev, rfl, rfl⟩, ?_⟩
                          · intro r hr
                            simp only [List.mem_singleton] at hr
                            subst hr
                            exact ⟨hprev, hlast⟩
                          · intro e h
                            simp at h
                      | cont v5 =>
                        have hs5 : s5 = s4 := ucont v5 rfl
                        simp only [finish]
                        rw [hs5]
                        obtain ⟨-, -, -, -, idisj, ierr⟩ :=
                          neroInstall_spec args w v5 s4
                        rcases idisj with ⟨hfe, hwe⟩ | ⟨hfe, hwe⟩
                        · rw [g4file] at hfe
                          rw [g4writes] at hwe
                          simp [hfe, hwe]
                        · rw [g4writes, List.nil_append] at hwe
                          rw [g4file] at hfe
                          refine ⟨?_, Or.inr ⟨_, ?_, ?_, hwe⟩, ?_⟩
                          · intro r hr
                            rw [hwe] at hr
                            simp only [List.mem_singleton] at hr
                            subst hr
                            rw [g4file]
                            exact ⟨rfl, rfl⟩
                          · rw [g4file]
                          · rw [hfe, g4file]
                          · intro e h
                            obtain ⟨hf, -⟩ := ierr e h
                            rw [hf, g4file]

/-- A state predicate survives `andThen` when the first statement's
result satisfies it and the continuation preserves it. -/
lemma andThen_pres (P : St → Prop) (r : Except String Flow × St)
    (k : Option String → St → Except String Flow × St)
    (h1 : P r.2) (h2 : ∀ v, P r.2 → P (k v r.2).2) :
    P (andThen r k).2 := by
  rcases r with ⟨res, s⟩
  cases res with
  | error e => exact h1
  | ok fl =>
    cases fl with
    | ret => exact h1
    | cont v => exact h2 v h1

/-- A state predicate survives `finish` when the chain's result
satisfies it and the tail preserves it. -/
lemma finish_pres (P : St → Prop) (r : Except String Flow × St)
    (k : Option String → St → Except String Unit × St)
    (h1 : P r.2) (h2 : ∀ v, P r.2 → P (k v r.2).2) :
    P (finish r k).2 := by
  rcases r with ⟨res, s⟩
  cases res with
  | error e => exact h1
  | ok fl =>
    cases fl with
    | ret => exact h1
    | cont v => exact h2 v h1

/-- On a dry run, `--update-config` leaves the config file, the
retrievals and the executed commands untouched. -/
lemma stepUpdateOnly_dry (args : Args) (w : World) (v : Option String)
    (s : St) (hd : args.dry_run = true) :
    (stepUpdateOnly args w v s).2.file = s.file ∧
    (stepUpdateOnly args w v s).2.retrievals = s.retrievals ∧
    (stepUpdateOnly args w v s).2.executed = s.executed := by
  by_cases hu : args.update_config
  · by_cases ht : truthy v
    · simp [stepUpdateOnly, update_config, save_config, hu, ht, hd]
    · cases hl : w.latest with
      | error e => simp [stepUpdateOnly, hu, ht, hl]
      | ok l =>
        simp [stepUpdateOnly, update_config, save_config, hu, ht, hl, hd]
  · simp [stepUpdateOnly, hu]

/-- On a dry run, the download/extract/install tail leaves the config
file, the retrievals and the executed commands untouched. -/
lemma neroInstall_dry (args : Args) (w : World) (v : Option String)
    (s : St) (hd : args.dry_run = true) :
    (neroInstall args w v s).2.file = s.file ∧
    (neroInstall args w v s).2.retrievals = s.retrievals ∧
    (neroInstall args w v s).2.executed = s.executed := by
  by_cases hw : w.dirWritable
  · by_cases ho : args.download_only <;>
      simp [neroInstall, download_file, run_command, update_config,
        save_config, hw, hd, ho]
  · simp [neroInstall, hw]

/-- On a dry run the whole `try` block performs no retrieval, executes
no command and leaves the config file untouched. -/
lemma neroBody_dry (args : Args) (w : World) (s0 : St)
    (hd : args.dry_run = true) :
    (neroBody args w s0).2.file = s0.file ∧
    (neroBody args w s0).2.retrievals = s0.retrievals ∧
    (neroBody args w s0).2.executed = s0.executed := by
  by_cases hp : w.pythonOk
  case neg => simp [neroBody, hp]
  case pos =>
    simp only [neroBody, hp, Bool.not_true, Bool.false_eq_true, if_false]
    refine finish_pres
      (fun t => t.file = s0.file ∧ t.retrievals = s0.retrievals ∧
        t.executed = s0.executed) _ _ ?_ ?_
    · refine andThen_pres (fun t => t.file = s0.file ∧
          t.retrievals = s0.retrievals ∧ t.executed = s0.executed) _ _ ?_ ?_
      · have f := stepCheck_frame args w (load_config s0.file) s0
        exact ⟨f.1, f.2.2.2.1, f.2.2.2.2.1⟩
      · intro v1 hP
        refine andThen_pres (fun t => t.file = s0.file ∧
            t.retrievals = s0.retrievals ∧ t.executed = s0.executed) _ _ ?_ ?_
        · exact ⟨(stepRollback_frame _ _ _ _).1.trans hP.1,
            (stepRollback_frame _ _ _ _).2.2.2.1.trans hP.2.1,
            (stepRollback_frame _ _ _ _).2.2.2.2.1.trans hP.2.2⟩
        · intro v2 hP2
          refine andThen_pres (fun t => t.file = s0.file ∧
            t.retrievals = s0.retrievals ∧ t.executed = s0.executed) _ _ ?_ ?_
          · exact ⟨(stepList_frame _ _ _ _).1.trans hP2.1,
              (stepList_frame _ _ _ _).2.2.2.1.trans hP2.2.1,
              (stepList_frame _ _ _ _).2.2.2.2.1.trans hP2.2.2⟩
          · intro v3 hP3
            refine andThen_pres (fun t => t.file = s0.file ∧
            t.retrievals = s0.retrievals ∧ t.executed = s0.executed) _ _ ?_ ?_
            · exact ⟨(stepResolve_frame _ _ _ _ _).1.trans hP3.1,
                (stepResolve_frame _ _ _ _ _).2.2.2.1.trans hP3.2.1,
                (stepResolve_frame _ _ _ _ _).2.2.2.2.1.trans hP3.2.2⟩
            · intro v4 hP4
              exact ⟨(stepUpdateOnly_dry _ _ _ _ hd).1.trans hP4.1,
                (stepUpdateOnly_dry _ _ _ _ hd).2.1.trans hP4.2.1,
                (stepUpdateOnly_dry _ _ _ _ hd).2.2.trans hP4.2.2⟩
    · intro v5 hP5
      exact ⟨(neroInstall_dry _ _ _ _ hd).1.trans hP5.1,
        (neroInstall_dry _ _ _ _ hd).2.1.trans hP5.2.1,
        (neroInstall_dry _ _ _ _ hd).2.2.trans hP5.2.2⟩

/-- Run-level summary of `nero`: every written record shifts the loaded
`current_version` into `previous_version`; the config file is untouched
or holds exactly the written record; the handler reports exactly the
raised exception, on which the config file is untouched; and the
`finally` clause calls `cleanup` exactly when `zip_path` was assigned. -/
lemma nero_spec (args : Args) (w : World) (file : Option Json)
    (inputs : List String) :
    (∀ rec ∈ (nero args w file inputs).st.writes,
       rec.previous_version = (load_config file).current_version ∧
       rec.last_update = some w.now) ∧
    ((nero args w file inputs).st.file = file ∨
     ∃ rec : Config,
       rec.previous_version = (load_config file).current_version ∧
       (nero args w file inputs).st.file = some (configToJson rec) ∧
       (nero args w file inputs).st.writes = [rec]) ∧
    (∀ e, (nero args w file inputs).raised = some e →
       (nero args w file inputs).st.file = file ∧
       (nero args w file inputs).errorPrints =
         ["An error occurred: " ++ e]) ∧
    (∀ zp, (nero args w file inputs).st.zipPath = some zp →
       (nero args w file inputs).cleanups = [(zp, args.keep)]) ∧
    ((nero args w file inputs).st.zipPath = none →
       (nero args w file inputs).cleanups = []) := by
  have hb := neroBody_spec args w
    { file := file, io := ⟨inputs, []⟩, fetched := 0, releasesFetched := 0
      retrievals := [], executed := [], writes := [], zipPath := none } rfl
  rcases h : neroBody args w
    { file := file, io := ⟨inputs, []⟩, fetched := 0, releasesFetched := 0
      retrievals := [], executed := [], writes := [], zipPath := none }
    with ⟨res, s1⟩
  rw [h] at hb
  dsimp only at hb
  obtain ⟨hwr, hdisj, herr⟩ := hb
  cases res with
  | ok u =>
    refine ⟨by simpa [nero, h] using hwr, by simpa [nero, h] using hdisj,
      ?_, ?_, ?_⟩
    · intro e he
      simp [nero, h] at he
    · intro zp hzp
      simp only [nero, h] at hzp ⊢
      simp [hzp]
    · intro hzp
      simp only [nero, h] at hzp ⊢
      simp [hzp]
  | error e =>
    refine ⟨by simpa [nero, h] using hwr, by simpa [nero, h] using hdisj,
      ?_, ?_, ?_⟩
    · intro e2 he
      simp only [nero, h] at he ⊢
      obtain rfl : e = e2 := by simpa using he
      exact ⟨herr e rfl, rfl⟩
    · intro zp hzp
      simp only [nero, h] at hzp ⊢
      simp [hzp]
    · intro hzp
      simp only [nero, h] at hzp ⊢
      simp [hzp]

/-- The retry loop makes at most `fuel` deletion attempts. -/
lemma retry_delete_attempts_le (f : Nat → Bool) :
    ∀ (fuel i : Nat), (retry_delete f fuel i).2 ≤ fuel := by
  intro fuel
  induction fuel with
  | zero => intro i; simp [retry_delete]
  | succ n ih =>
    intro i
    by_cases h : f i
    · simp [retry_delete, h]
    · simp only [retry_delete, h, Bool.false_eq_true, if_false]
      exact Nat.succ_le_succ (ih (i + 1))

/-- The retry loop succeeds exactly when some attempt within the fuel
bound succeeds. -/
lemma retry_delete_succ_iff (f : Nat → Bool) :
    ∀ (fuel i : Nat),
      (retry_delete f fuel i).1 = true ↔ ∃ j, j < fuel ∧ f (i + j) = true := by
  intro fuel
  induction fuel with
  | zero => intro i; simp [retry_delete]
  | succ n ih =>
    intro i
    by_cases h : f i
    · simp [retry_delete, h]
      exact ⟨0, by omega, by simpa using h⟩
    · simp only [retry_delete, h, Bool.false_eq_true, if_false]
      rw [ih (i + 1)]
      constructor
      · rintro ⟨j, hj, hf⟩
        exact ⟨j + 1, by omega, by simpa [Nat.add_assoc, Nat.add_comm 1 j] using hf⟩
      · rintro ⟨j, hj, hf⟩
        cases j with
        | zero => simp at hf; exact absurd hf h
        | succ m =>
          exact ⟨m, by omega, by simpa [Nat.add_assoc, Nat.add_comm 1 m] using hf⟩

/-- A failed retry loop used all its fuel. -/
lemma retry_delete_fail (f : Nat → Bool) :
    ∀ (fuel i : Nat), (retry_delete f fuel i).1 = false →
      (retry_delete f fuel i).2 = fuel := by
  intro fuel
  induction fuel with
  | zero => intro i _; simp [retry_delete]
  | succ n ih =>
    intro i h
    by_cases hf : f i
    · simp [retry_delete, hf] at h
    · simp only [retry_delete, hf, Bool.false_eq_true, if_false] at h ⊢
      rw [ih (i + 1) h]

/-- The rollback prompt loop returns the stripped first non-blank line,
which is non-empty. -/
lemma rollback_loop_aux_spec :
    ∀ (inputs : List String) (shown : List Prompt),
      (∃ i ∈ inputs, strip i ≠ "") →
      ∃ v st', rollback_loop_aux inputs shown = Except.ok (v, st') ∧
        v ≠ "" := by
  intro inputs
  induction inputs with
  | nil => simp
  | cons a rest ih =>
    intro shown hex
    by_cases ha : strip a = ""
    · have hrest : ∃ i ∈ rest, strip i ≠ "" := by
        rcases hex with ⟨i, hi, hne⟩
        rcases List.mem_cons.mp hi with rfl | hi'
        · exact absurd ha hne
        · exact ⟨i, hi', hne⟩
      have hred : rollback_loop_aux (a :: rest) shown =
          rollback_loop_aux rest (shown ++ [Prompt.rollbackVersion]) := by
        simp [rollback_loop_aux, ha]
      rw [hred]
      exact ih _ hrest
    · exact ⟨strip a, ⟨rest, shown ++ [Prompt.rollbackVersion]⟩,
        by simp [rollback_loop_aux, ha], ha⟩

/-- With an explicit truthy `--version V` and `--check`, `--rollback`,
`--list-versions` all unset, the `try` block performs no latest-version
fetch and shows no prompt, and every retrieval and write it performs
uses `V`. -/
lemma neroBody_version (args : Args) (w : World) (s0 : St) (V : String)
    (hv : args.version = some V) (hV : V ≠ "")
    (hc : args.check = false) (hr : args.rollback = false)
    (hl : args.list_versions = false) :
    (neroBody args w s0).2.fetched = s0.fetched ∧
    (neroBody args w s0).2.io = s0.io ∧
    (∀ r ∈ (neroBody args w s0).2.retrievals,
       r ∈ s0.retrievals ∨ r.1 = downloadUrl V) ∧
    (∀ rec ∈ (neroBody args w s0).2.writes,
       rec ∈ s0.writes ∨ rec.current_version = some V) := by
  by_cases hp : w.pythonOk
  case neg =>
    simp [neroBody, hp]
    exact ⟨fun a b h => Or.inl h, fun rec h => Or.inl h⟩
  case pos =>
    simp only [neroBody, hp, Bool.not_true, Bool.false_eq_true, if_false]
    have e1 : stepCheck args w (load_config s0.file) s0 =
        (Except.ok (Flow.cont (some V)), s0) := by
      simp [stepCheck, hc, hv]
    have e2 : stepRollback args (load_config s0.file) (some V) s0 =
        (Except.ok (Flow.cont (some V)), s0) := by
      simp [stepRollback, hr]
    have e3 : stepList args w (some V) s0 =
        (Except.ok (Flow.cont (some V)), s0) := by
      simp [stepList, hl]
    have e4 : stepResolve args w (load_config s0.file) (some V) s0 =
        (Except.ok (Flow.cont (some V)), s0) := by
      simp [stepResolve, truthy, hV]
    rw [e1]
    simp only [andThen]
    rw [e2]
    simp only [andThen]
    rw [e3]
    simp only [andThen]
    rw [e4]
    simp only [andThen]
    by_cases hu : args.update_config
    · have htv : truthy (some V) = true := by simp [truthy, hV]
      by_cases hd : args.dry_run
      · simp only [stepUpdateOnly, hu, htv, hd, if_true, finish]
        refine ⟨by trivial, by trivial, ?_, ?_⟩
        · exact fun r hr => Or.inl hr
        · exact fun rec hrec => Or.inl hrec
      · simp only [stepUpdateOnly, hu, htv, hd, if_true, if_false,
          Bool.false_eq_true, update_config, save_config, finish]
        refine ⟨by trivial, by trivial, ?_, ?_⟩
        · exact fun r hr => Or.inl hr
        · intro rec hrec
          rcases List.mem_append.mp hrec with h | h
          · exact Or.inl h
          · simp only [List.mem_singleton] at h
            subst h
            exact Or.inr rfl
    · have e5 : stepUpdateOnly args w (some V) s0 =
          (Except.ok (Flow.cont (some V)), s0) := by
        simp [stepUpdateOnly, hu]
      rw [e5]
      simp only [finish]
      obtain ⟨i1, -, i3, i4, idisj, -⟩ := neroInstall_spec args w (some V) s0
      refine ⟨i1, i3, ?_, ?_⟩
      · intro r hr
        rcases i4 r hr with h | h
        · exact Or.inl h
        · exact Or.inr (by simpa using h)
      · intro rec hrec
        rcases idisj with ⟨-, hwe⟩ | ⟨-, hwe⟩
        · rw [hwe] at hrec
          exact Or.inl hrec
        · rw [hwe] at hrec
          rcases List.mem_append.mp hrec with h | h
          · exact Or.inl h
          · simp only [List.mem_singleton] at h
            subst h
            exact Or.inr rfl

/-! ## Claim theorems -/

/-- C1: the version resolver (`check_for_updates`, and
`check_and_display_config` under `--check`) conforms to the decision
table: with no current version it shows the install-latest prompt and
returns the latest on `y` and `None` otherwise; with current equal to
latest it returns `None` with no prompt; with current different from
latest it shows the upgrade/downgrade/cancel prompt and returns the
latest on upgrade, the typed (stripped, non-blank) value on downgrade,
and `None` on cancel. -/
theorem resolver_decision_table (cur : Option String) (latest : String)
    (st : IOState) :
    (truthy cur = false →
       ∀ ans rest, st.inputs = ans :: rest →
         check_for_updates cur latest st =
           Except.ok ((if prompt_user ans then some latest else none),
             ⟨rest, st.shown ++ [Prompt.installLatest]⟩)) ∧
    (truthy cur = true → cur = some latest →
       check_for_updates cur latest st = Except.ok (none, st)) ∧
    (truthy cur = true → cur.getD "" ≠ latest →
       ∀ c rest, st.inputs = c :: rest →
         (lower (strip c) = "u" →
            check_for_updates cur latest st =
              Except.ok (some latest,
                ⟨rest, st.shown ++ [Prompt.upgradeDowngradeCancel]⟩)) ∧
         (lower (strip c) = "c" →
            check_for_updates cur latest st =
              Except.ok (none,
                ⟨rest, st.shown ++ [Prompt.upgradeDowngradeCancel]⟩)) ∧
         (lower (strip c) = "d" →
            ∀ d rest2, rest = d :: rest2 → strip d ≠ "" →
              check_for_updates cur latest st =
                Except.ok (some (strip d),
                  ⟨rest2, st.shown ++ [Prompt.upgradeDowngradeCancel,
                    Prompt.downgradeVersion]⟩))) ∧
    (∀ cfg : Config, cfg.current_version = cur →
       check_and_display_config cfg latest st =
         check_for_updates cur latest st) := by
  refine ⟨?_, ?_, ?_, ?_⟩
  · intro ht ans rest hst
    simp [check_for_updates, readLine, ht, hst]
  · intro ht hc
    subst hc
    simp [check_for_updates, ht]
  · intro ht hne c rest hst
    refine ⟨?_, ?_, ?_⟩
    · intro hu
      simp [check_for_updates, readLine, ht, hne, hst, hu]
    · intro hcC
      simp [check_for_updates, readLine, ht, hne, hst, hcC]
    · intro hd d rest2 hrest hblank
      simp [check_for_updates, readLine, ht, hne, hst, hd, hrest, hblank]
  · intro cfg hcfg
    rw [← hcfg]
    rfl

/-- C2: every record written by `update_config` has `previous_version`
equal to the `current_version` of the record loaded immediately before
the write, and every config-file write during any run of `nero`
satisfies the same invariant. -/
theorem previous_version_invariant :
    (∀ (v now : String) (file : Option Json),
       (update_config v false now file).2.2.previous_version =
         (load_config file).current_version ∧
       (update_config v false now file).2.1 =
         some (configToJson (update_config v false now file).2.2)) ∧
    (∀ (args : Args) (w : World) (file : Option Json)
       (inputs : List String),
       ∀ rec ∈ (nero args w file inputs).st.writes,
         rec.previous_version = (load_config file).current_version) := by
  constructor
  · intro v now file
    exact ⟨rfl, rfl⟩
  · intro args w file inputs rec hrec
    exact ((nero_spec args w file inputs).1 rec hrec).1

/-- C3: the configuration record round-trips through
`save_config` / `load_config` unchanged. -/
theorem config_roundtrip (c : Config) (file : Option Json) :
    load_config (save_config c false file).2 = c := by
  simp [load_config, save_config, jsonToConfig_configToJson]

/-- C4: when any step inside `nero`'s `try` block raises, the top-level
handler catches it and prints exactly one error line, the persisted
configuration file is left unchanged, and the `finally` clause runs
`cleanup` on the downloaded archive whenever `zip_path` was assigned. -/
theorem nero_error_unwind (args : Args) (w : World) (file : Option Json)
    (inputs : List String) (e : String)
    (h : (nero args w file inputs).raised = some e) :
    (nero args w file inputs).errorPrints = ["An error occurred: " ++ e] ∧
    (nero args w file inputs).st.file = file ∧
    (∀ zp, (nero args w file inputs).st.zipPath = some zp →
       (nero args w file inputs).cleanups = [(zp, args.keep)]) := by
  obtain ⟨-, -, herr, hclean, -⟩ := nero_spec args w file inputs
  obtain ⟨hfile, hprint⟩ := herr e h
  exact ⟨hprint, hfile, hclean⟩

/-- C5: `cleanup` deletes the archive only when the keep flag is unset,
handles the temp directory regardless of keep, bounds every deletion by
5 attempts, succeeds exactly when some attempt within the bound
succeeds, and gives up with the failure message after 5 failed
attempts. -/
theorem cleanup_retry_bounds (zp : String) (keep : Bool)
    (w : CleanupWorld) :
    ((cleanup (some zp) keep w).zipAttempts ≤ 5 ∧
     (cleanup (some zp) keep w).tempAttempts ≤ 5) ∧
    (keep = true → (cleanup (some zp) keep w).zipAttempts = 0 ∧
       (cleanup (some zp) keep w).zipRemoved = false) ∧
    (keep = false → w.zipExists = true →
       ((cleanup (some zp) keep w).zipRemoved = true ↔
          ∃ j, j < 5 ∧ w.removeOutcome j = true) ∧
       ((cleanup (some zp) keep w).zipRemoved = false →
          (cleanup (some zp) keep w).zipAttempts = 5 ∧
          (cleanup (some zp) keep w).zipGaveUp = true)) ∧
    (w.tempDirExists = true →
       ((cleanup (some zp) keep w).tempRemoved = true ↔
          ∃ j, j < 5 ∧ w.rmtreeOutcome j = true) ∧
       ((cleanup (some zp) keep w).tempRemoved = false →
          (cleanup (some zp) keep w).tempAttempts = 5 ∧
          (cleanup (some zp) keep w).tempGaveUp = true)) ∧
    ((cleanup (some zp) true w).tempRemoved =
       (cleanup (some zp) false w).tempRemoved ∧
     (cleanup (some zp) true w).tempAttempts =
       (cleanup (some zp) false w).tempAttempts) := by
  have hiff : ∀ (f : Nat → Bool),
      ((retry_delete f 5 0).1 = true ↔ ∃ j, j < 5 ∧ f j = true) := by
    intro f
    rw [retry_delete_succ_iff]
    simp
  refine ⟨⟨?_, ?_⟩, ?_, ?_, ?_, ?_, ?_⟩
  · by_cases hk : keep <;> by_cases hz : w.zipExists <;>
      simp [cleanup, hk, hz, retry_delete_attempts_le w.removeOutcome 5 0]
  · by_cases h : w.tempDirExists <;>
      simp [cleanup, h, retry_delete_attempts_le w.rmtreeOutcome 5 0]
  · intro hk
    subst hk
    simp [cleanup]
  · intro hk hz
    subst hk
    constructor
    · simpa [cleanup, hz] using hiff w.removeOutcome
    · intro hnr
      have h1 : (retry_delete w.removeOutcome 5 0).1 = false := by
        simpa [cleanup, hz] using hnr
      constructor
      · simpa [cleanup, hz] using retry_delete_fail w.removeOutcome 5 0 h1
      · simp [cleanup, hz, h1]
  · intro hz
    constructor
    · simpa [cleanup, hz] using hiff w.rmtreeOutcome
    · intro hnr
      have h1 : (retry_delete w.rmtreeOutcome 5 0).1 = false := by
        simpa [cleanup, hz] using hnr
      constructor
      · simpa [cleanup, hz] using retry_delete_fail w.rmtreeOutcome 5 0 h1
      · simp [cleanup, hz, h1]
  · simp [cleanup]
  · simp [cleanup]

/-- C6: under `--rollback`, a truthy stored `previous_version` is the
target with no prompt shown; with no stored `previous_version` the user
is prompted and the typed (stripped) value becomes the target. -/
theorem rollback_version_choice (config : Config) (st : IOState) :
    (∀ p, config.previous_version = some p → p ≠ "" →
       get_rollback_version config st = Except.ok (p, st)) ∧
    (config.previous_version = none →
       ∀ v rest, st.inputs = v :: rest → strip v ≠ "" →
         get_rollback_version config st =
           Except.ok (strip v,
             ⟨rest, st.shown ++ [Prompt.rollbackVersion]⟩)) := by
  constructor
  · intro p hp hne
    simp [get_rollback_version, hp, hne]
  · intro hp v rest hst hv
    rcases st with ⟨inputs, shown⟩
    simp only at hst
    subst hst
    simp [get_rollback_version, hp, rollback_loop, rollback_loop_aux, hv]

/-- C7: with `--version V` given (truthy) and `--check`, `--rollback`,
`--list-versions` unset, the resolver is never invoked (no version
fetch, no prompt), every retrieval targets the download URL for `V`,
and every persisted record has `current_version = V`. -/
theorem explicit_version_bypass (args : Args) (w : World)
    (file : Option Json) (inputs : List String) (V : String)
    (hv : args.version = some V) (hV : V ≠ "")
    (hc : args.check = false) (hr : args.rollback = false)
    (hl : args.list_versions = false) :
    (nero args w file inputs).st.fetched = 0 ∧
    (nero args w file inputs).st.io.shown = [] ∧
    (∀ r ∈ (nero args w file inputs).st.retrievals,
       r.1 = downloadUrl V) ∧
    (∀ rec ∈ (nero args w file inputs).st.writes,
       rec.current_version = some V) := by
  have hb := neroBody_version args w
    { file := file, io := ⟨inputs, []⟩, fetched := 0, releasesFetched := 0
      retrievals := [], executed := [], writes := [], zipPath := none }
    V hv hV hc hr hl
  rcases h : neroBody args w
    { file := file, io := ⟨inputs, []⟩, fetched := 0, releasesFetched := 0
      retrievals := [], executed := [], writes := [], zipPath := none }
    with ⟨res, s1⟩
  rw [h] at hb
  dsimp only at hb
  obtain ⟨hf, hio, hretr, hwr⟩ := hb
  have hst : (nero args w file inputs).st = s1 := by
    simp [nero, h]
  rw [hst]
  refine ⟨hf, by rw [hio], ?_, ?_⟩
  · intro r hrr
    rcases hretr r hrr with hmem | hurl
    · simp at hmem
    · exact hurl
  · intro rec hrec
    rcases hwr rec hrec with hmem | hcur
    · simp at hmem
    · exact hcur

/-- C8: with the config file absent `load_config` returns the
all-`None` default; a real save creates/overwrites the file with the
whole record (all three fields rewritten by `update_config`); and no
run of `nero` ever deletes the config file. -/
theorem config_lifecycle :
    (load_config none =
       { current_version := none, previous_version := none
         last_update := none }) ∧
    (∀ (c : Config) (file : Option Json),
       (save_config c false file).2 = some (configToJson c)) ∧
    (∀ (v now : String) (file : Option Json),
       (update_config v false now file).2.1 = some (configToJson
         { current_version := some v
           previous_version := (load_config file).current_version
           last_update := some now })) ∧
    (∀ (args : Args) (w : World) (file : Option Json)
       (inputs : List String),
       file ≠ none → (nero args w file inputs).st.file ≠ none) := by
  refine ⟨rfl, fun c file => rfl, fun v now file => rfl, ?_⟩
  intro args w file inputs hne
  rcases (nero_spec args w file inputs).2.1 with hf | ⟨rec, -, hf, -⟩
  · rw [hf]
    exact hne
  · rw [hf]
    simp

/-- C9: with `dry_run` set, `save_config` leaves the file untouched,
`download_file` retrieves nothing, `run_command` executes nothing (each
printing a DRY RUN line instead), and a dry run of `nero` leaves the
persisted record unchanged, retrieves nothing and executes nothing. -/
theorem dry_run_no_effects :
    (∀ (c : Config) (file : Option Json),
       (save_config c true file).2 = file ∧
       (save_config c true file).1 = ["[DRY RUN] Would save config"]) ∧
    (∀ (url fn : String) (res : Except String Unit),
       (download_file url fn true res).2.1 = [] ∧
       (download_file url fn true res).1 =
         ["[DRY RUN] Would download: " ++ url ++ " to " ++ fn]) ∧
    (∀ (cmd : String) (wait : Bool) (res : Except String Unit),
       (run_command cmd true wait res).2.1 = []) ∧
    (∀ (v now : String) (file : Option Json),
       (update_config v true now file).2.1 = file) ∧
    (∀ (args : Args) (w : World) (file : Option Json)
       (inputs : List String), args.dry_run = true →
       (nero args w file inputs).st.file = file ∧
       (nero args w file inputs).st.retrievals = [] ∧
       (nero args w file inputs).st.executed = []) := by
  refine ⟨fun c file => ⟨rfl, rfl⟩, fun url fn res => ⟨rfl, rfl⟩,
    fun cmd wait res => rfl, fun v now file => rfl, ?_⟩
  intro args w file inputs hd
  have hb := neroBody_dry args w
    { file := file, io := ⟨inputs, []⟩, fetched := 0, releasesFetched := 0
      retrievals := [], executed := [], writes := [], zipPath := none } hd
  rcases h : neroBody args w
    { file := file, io := ⟨inputs, []⟩, fetched := 0, releasesFetched := 0
      retrievals := [], executed := [], writes := [], zipPath := none }
    with ⟨res, s1⟩
  rw [h] at hb
  dsimp only at hb
  have hst : (nero args w file inputs).st = s1 := by
    simp [nero, h]
  rw [hst]
  exact hb

/-- C10: `get_rollback_version` never produces an empty version: a
truthy stored `previous_version` is returned as-is, and otherwise the
prompt loop rejects blank lines until a non-blank one arrives, so any
input sequence containing a non-blank entry yields a non-empty
result. -/
theorem rollback_result_nonempty (config : Config) (st : IOState)
    (h : truthy config.previous_version = true ∨
      ∃ i ∈ st.inputs, strip i ≠ "") :
    ∃ v st', get_rollback_version config st = Except.ok (v, st') ∧
      v ≠ "" := by
  rcases h with ht | hex
  · cases hp : config.previous_version with
    | none => rw [hp] at ht; simp [truthy] at ht
    | some p =>
      have hne : p ≠ "" := by
        rw [hp] at ht
        simpa [truthy] using ht
      exact ⟨p, st, by simp [get_rollback_version, hp, hne], hne⟩
  · cases hp : config.previous_version with
    | none =>
      simpa [get_rollback_version, hp, rollback_loop] using
        rollback_loop_aux_spec st.inputs st.shown hex
    | some p =>
      by_cases hne : p = ""
      · subst hne
        simpa [get_rollback_version, hp, rollback_loop] using
          rollback_loop_aux_spec st.inputs st.shown hex
      · exact ⟨p, st, by simp [get_rollback_version, hp, hne], hne⟩

/-! ## Witnesses -/

/-- Witness for C1: concrete upgrade, downgrade, cancel, up-to-date and
fresh-install dialogues. -/
theorem resolver_decision_table_witness :
    check_for_updates (some "0.1") "0.2" ⟨["u"], []⟩ =
      Except.ok (some "0.2", ⟨[], [Prompt.upgradeDowngradeCancel]⟩) ∧
    check_for_updates (some "0.1") "0.2" ⟨["d", "0.1"], []⟩ =
      Except.ok (some "0.1",
        ⟨[], [Prompt.upgradeDowngradeCancel, Prompt.downgradeVersion]⟩) ∧
    check_for_updates (some "0.1") "0.2" ⟨["c"], []⟩ =
      Except.ok (none, ⟨[], [Prompt.upgradeDowngradeCancel]⟩) ∧
    check_for_updates (some "0.2") "0.2" ⟨["u"], []⟩ =
      Except.ok (none, ⟨["u"], []⟩) ∧
    check_for_updates none "0.2" ⟨["y"], []⟩ =
      Except.ok (some "0.2", ⟨[], [Prompt.installLatest]⟩) ∧
    check_for_updates none "0.2" ⟨["n"], []⟩ =
      Except.ok (none, ⟨[], [Prompt.installLatest]⟩) ∧
    check_and_display_config
        { current_version := some "0.1", previous_version := none
          last_update := none } "0.2" ⟨["u"], []⟩ =
      check_for_updates (some "0.1") "0.2" ⟨["u"], []⟩ := by
  refine ⟨?_, ?_, ?_, ?_, ?_, ?_, ?_⟩
  · simpa using
      ((resolver_decision_table (some "0.1") "0.2" ⟨["u"], []⟩).2.2.1
        (by decide) (by decide) "u" [] rfl).1 (by decide)
  · simpa using
      ((resolver_decision_table (some "0.1") "0.2" ⟨["d", "0.1"], []⟩).2.2.1
        (by decide) (by decide) "d" ["0.1"] rfl).2.2 (by decide)
        "0.1" [] rfl (by decide)
  · simpa using
      ((resolver_decision_table (some "0.1") "0.2" ⟨["c"], []⟩).2.2.1
        (by decide) (by decide) "c" [] rfl).2.1 (by decide)
  · exact (resolver_decision_table (some "0.2") "0.2" ⟨["u"], []⟩).2.1
      (by decide) rfl
  · simpa using
      (resolver_decision_table none "0.2" ⟨["y"], []⟩).1 rfl "y" [] rfl
  · simpa using
      (resolver_decision_table none "0.2" ⟨["n"], []⟩).1 rfl "n" [] rfl
  · exact (resolver_decision_table (some "0.1") "0.2" ⟨["u"], []⟩).2.2.2
      { current_version := some "0.1", previous_version := none
        last_update := none } rfl

/-- Witness for C2: a concrete successful install run writes a record
whose `previous_version` is the previously stored `current_version`. -/
theorem previous_version_invariant_witness :
    ({ current_version := some "9.9", previous_version := some "0.2"
       last_update := some "2024-01-01T00:00:00" } : Config).previous_version
      = (load_config (some (configToJson
          { current_version := some "0.2", previous_version := none
            last_update := none }))).current_version :=
  previous_version_invariant.2 { version := some "9.9" } wOk
    (some (configToJson
      { current_version := some "0.2", previous_version := none
        last_update := none })) []
    { current_version := some "9.9", previous_version := some "0.2"
      last_update := some "2024-01-01T00:00:00" }
    (by decide)

/-- Witness for C4: a failing download raises, the handler prints the
error, the config file is untouched and cleanup runs on the archive. -/
theorem nero_error_unwind_witness :
    (nero { version := some "9.9" }
      { wOk with download := Except.error "boom" } none []).errorPrints =
        ["An error occurred: " ++ "boom"] ∧
    (nero { version := some "9.9" }
      { wOk with download := Except.error "boom" } none []).st.file = none ∧
    (∀ zp, (nero { version := some "9.9" }
        { wOk with download := Except.error "boom" } none []).st.zipPath =
          some zp →
      (nero { version := some "9.9" }
        { wOk with download := Except.error "boom" } none []).cleanups =
        [(zp, ({ version := some "9.9" } : Args).keep)]) :=
  nero_error_unwind { version := some "9.9" }
    { wOk with download := Except.error "boom" } none [] "boom" (by decide)

/-- Witness for C5: with deletion succeeding on the third attempt the
archive is removed; with every attempt failing, the temp-directory loop
uses its 5 attempts and gives up. -/
theorem cleanup_retry_bounds_witness :
    (((cleanup (some "/tmp/a.zip") false
        ⟨true, fun i => decide (i = 2), true, fun _ => false⟩).zipRemoved
          = true ↔
        ∃ j, j < 5 ∧
          (⟨true, fun i => decide (i = 2), true, fun _ => false⟩ :
            CleanupWorld).removeOutcome j = true) ∧
      ((cleanup (some "/tmp/a.zip") false
          ⟨true, fun i => decide (i = 2), true, fun _ => false⟩).zipRemoved
            = false →
        (cleanup (some "/tmp/a.zip") false
          ⟨true, fun i => decide (i = 2), true, fun _ => false⟩).zipAttempts
            = 5 ∧
        (cleanup (some "/tmp/a.zip") false
          ⟨true, fun i => decide (i = 2), true, fun _ => false⟩).zipGaveUp
            = true)) ∧
    ((cleanup (some "/tmp/a.zip") false
        ⟨true, fun i => decide (i = 2), true, fun _ => false⟩).tempRemoved
          = true ↔
      ∃ j, j < 5 ∧
        (⟨true, fun i => decide (i = 2), true, fun _ => false⟩ :
          CleanupWorld).rmtreeOutcome j = true) ∧
    ((cleanup (some "/tmp/a.zip") false
        ⟨true, fun i => decide (i = 2), true, fun _ => false⟩).tempRemoved
          = false →
      (cleanup (some "/tmp/a.zip") false
        ⟨true, fun i => decide (i = 2), true, fun _ => false⟩).tempAttempts
          = 5 ∧
      (cleanup (some "/tmp/a.zip") false
        ⟨true, fun i => decide (i = 2), true, fun _ => false⟩).tempGaveUp
          = true) :=
  ⟨(cleanup_retry_bounds "/tmp/a.zip" false
      ⟨true, fun i => decide (i = 2), true, fun _ => false⟩).2.2.1 rfl rfl,
   (cleanup_retry_bounds "/tmp/a.zip" false
      ⟨true, fun i => decide (i = 2), true, fun _ => false⟩).2.2.2.1 rfl⟩

/-- Witness for C6: a stored previous version is returned with no
prompt; with none stored, the typed version is returned. -/
theorem rollback_version_choice_witness :
    get_rollback_version
        { current_version := some "0.2", previous_version := some "0.1"
          last_update := none } ⟨[], []⟩ =
      Except.ok ("0.1", ⟨[], []⟩) ∧
    get_rollback_version
        { current_version := none, previous_version := none
          last_update := none } ⟨["0.3"], []⟩ =
      Except.ok ("0.3", ⟨[], [Prompt.rollbackVersion]⟩) := by
  constructor
  · exact (rollback_version_choice
      { current_version := some "0.2", previous_version := some "0.1"
        last_update := none } ⟨[], []⟩).1 "0.1" rfl (by decide)
  · simpa using (rollback_version_choice
      { current_version := none, previous_version := none
        last_update := none } ⟨["0.3"], []⟩).2 rfl "0.3" [] rfl (by decide)

/-- Witness for C7: a concrete run with `--version 9.9` fetches nothing,
prompts nothing, and uses 9.9 for the download URL and the record. -/
theorem explicit_version_bypass_witness :
    (nero { version := some "9.9" } wOk none []).st.fetched = 0 ∧
    (nero { version := some "9.9" } wOk none []).st.io.shown = [] ∧
    (∀ r ∈ (nero { version := some "9.9" } wOk none []).st.retrievals,
       r.1 = downloadUrl "9.9") ∧
    (∀ rec ∈ (nero { version := some "9.9" } wOk none []).st.writes,
       rec.current_version = some "9.9") :=
  explicit_version_bypass { version := some "9.9" } wOk none [] "9.9"
    rfl (by decide) rfl rfl rfl

/-- Witness for C8: a run over a present config file leaves a present
config file. -/
theorem config_lifecycle_witness :
    (nero { } wOk (some Json.null) []).st.file ≠ none :=
  config_lifecycle.2.2.2 { } wOk (some Json.null) []
    (Option.some_ne_none Json.null)

/-- Witness for C9: a concrete dry run changes nothing, retrieves
nothing and executes nothing. -/
theorem dry_run_no_effects_witness :
    (nero { dry_run := true, version := some "9.9" } wOk none
       []).st.file = none ∧
    (nero { dry_run := true, version := some "9.9" } wOk none
       []).st.retrievals = [] ∧
    (nero { dry_run := true, version := some "9.9" } wOk none
       []).st.executed = [] :=
  dry_run_no_effects.2.2.2.2 { dry_run := true, version := some "9.9" }
    wOk none [] rfl

/-- Witness for C10: a blank line is rejected and the following
non-blank line is returned, which is non-empty. -/
theorem rollback_result_nonempty_witness :
    ∃ v st', get_rollback_version
        { current_version := none, previous_version := none
          last_update := none } ⟨["", "0.2"], []⟩ =
      Except.ok (v, st') ∧ v ≠ "" :=
  rollback_result_nonempty
    { current_version := none, previous_version := none
      last_update := none } ⟨["", "0.2"], []⟩
    (Or.inr ⟨"0.2", by decide, by decide⟩)

end Nero